import Mathlib

/-!
# Verification of the `update_libraries.py` library-sync tool

A shallow embedding of `src/update_libraries.py` (a Python 2 script that
fetches external libraries into a shared storage root and symlinks them
into project trees), together with theorems settling the specification
claims about it.

Modelling conventions:
* Python strings are Lean `String`s; `re`-based operations are modelled by
  explicit character-list scans implementing the exact semantics of the
  patterns appearing in the source (`\W`, `link_from(\.\d+)?`, `(\d+)`).
* `ConfigParser` data is an ordered association list of sections, each an
  ordered association list of options (Python 2.7's ConfigParser preserves
  insertion order via OrderedDict).
* The filesystem is a flat finite map from path strings to entries
  (directory, regular file, or symlink with a target); paths are treated
  as atomic keys, mirroring the script's own path handling, which never
  resolves a symlink occurring in the middle of a path.
* Stateful code is state passing over a `World` (filesystem, working
  directory, emitted messages, executed shell commands, linkinfo data);
  a Python exception is an `Except.error` that leaves the `World` reached
  so far intact, matching the fact that filesystem mutations performed
  before an uncaught exception persist.
* `urllib.urlopen` is modelled in two parts. Its scheme dispatch is code:
  `urllib.splittype` extracts the text before the first `:` (lowercased,
  provided it is nonempty and contains no `/`), and a url whose scheme is
  neither `http` nor `https` has no `open_<scheme>` handler on
  `URLopener`, so `open_unknown` raises `IOError('url error', 'unknown
  url type')` deterministically, with no network exchange. Only for
  handled urls is the outside world consulted: the oracle
  `Net : String -> Except PyErr (Option String)` gives either the raised
  `IOError` (socket failure, missing local file) or the value of the
  `status` header that `urlopen(url).info()` reports (`none` when the
  response carries no `status` header).
-/

/-! ## String and path helpers (Python `os.path` and `%`-formatting) -/

/-- Python 2 `re` word character, pattern `\w`: `[A-Za-z0-9_]`. -/
def wordChar (c : Char) : Bool :=
  c.isAlphanum || c = '_'

/-- `re.compile("\\W").sub("_", s)` from `_extdir_from_library`: every single
character that is not a word character is replaced by one underscore. -/
def reSubNonWord (s : String) : String :=
  String.mk (s.data.map (fun c => if wordChar c then c else '_'))

/-- Spec-side normalizer, following the claim's words only: every *maximal
run* of non-word characters is replaced by a single filler character.
Used to compare the spec text against the source's `reSubNonWord`. -/
def specCollapseRuns (s : String) : String :=
  String.mk (go false s.data)
where
  /-- `inRun` records whether the previous character was non-word, so a
  whole maximal run contributes a single filler. -/
  go : Bool → List Char → List Char
    | _, [] => []
    | inRun, c :: rest =>
      if wordChar c then c :: go false rest
      else if inRun then go true rest
      else '_' :: go true rest

/-- Drop an expected leading run of characters; `none` when `s` does not
start with `pre`. -/
def dropStart : List Char → List Char → Option (List Char)
  | [], s => some s
  | _, [] => none
  | p :: ps, c :: cs => if p = c then dropStart ps cs else none

/-- Python `str.startswith` (list-based, so that it evaluates inside the
kernel). -/
def strStartsWith (s pre : String) : Bool :=
  (dropStart pre.data s.data).isSome

/-- Python `str.endswith`. -/
def strEndsWith (s suf : String) : Bool :=
  (dropStart suf.data.reverse s.data.reverse).isSome

/-- Python `os.path.join(a, b)` (posixpath, two arguments). -/
def pyJoin (a b : String) : String :=
  if strStartsWith b "/" then b
  else if a = "" then b
  else if strEndsWith a "/" then a ++ b
  else a ++ "/" ++ b

/-- Python `os.path.basename(p)`: everything after the last slash. -/
def pyBasename (p : String) : String :=
  String.mk ((p.data.reverse.takeWhile (fun c => c ≠ '/')).reverse)

/-- Python `os.path.dirname(p)`: everything up to the last slash, with
trailing slashes stripped unless the result consists only of slashes. -/
def pyDirname (p : String) : String :=
  let head := (p.data.reverse.dropWhile (fun c => c ≠ '/')).reverse
  if head.all (fun c => c = '/') then String.mk head
  else String.mk (head.reverse.dropWhile (fun c => c = '/')).reverse

/-- Python `os.path.abspath` restricted to what the script needs: an
absolute path is returned unchanged, a relative one is joined to the
current working directory (no `normpath` steps are modelled because the
script only passes already-normalized paths). -/
def pyAbspath (cwd p : String) : String :=
  if strStartsWith p "/" then p else pyJoin cwd p

/-- Python `%`-formatting with string arguments: each `%s` in the template
is replaced, left to right, by the corresponding argument. The script only
ever formats with exactly as many arguments as placeholders. -/
def pyFormat (tmpl : String) (args : List String) : String :=
  String.mk (go tmpl.data args)
where
  go : List Char → List String → List Char
    | [], _ => []
    | '%' :: 's' :: rest, a :: as => a.data ++ go rest as
    | c :: rest, as => c :: go rest as

/-- Python `str.lower()` (ASCII, as used for library types). -/
def pyLower (s : String) : String :=
  String.mk (s.data.map Char.toLower)

/-- Python `str.capitalize()`. -/
def pyCapitalize (s : String) : String :=
  match s.data with
  | [] => ""
  | c :: rest => String.mk (c.toUpper :: rest.map Char.toLower)

/-- Value of a digit character. -/
def digitVal (c : Char) : Nat := c.toNat - 48

/-- `int(...)` of a digit run. -/
def digitsToNat (ds : List Char) : Nat :=
  ds.foldl (fun n c => 10 * n + digitVal c) 0

/-- `re.search("(\\d+)", s)` followed by `int(...)`: the first maximal run
of digits in `s`, as a number; `none` when `s` has no digit. -/
def firstNumber (s : String) : Option Nat :=
  match s.data.dropWhile (fun c => !c.isDigit) with
  | [] => none
  | ds => some (digitsToNat (ds.takeWhile Char.isDigit))

/-! ## Configuration model (`ConfigParser` data) -/

/-- The ordered option list of one configuration section. -/
abbrev Options := List (String × String)

/-- An ordered list of sections: the parsed configuration (or linkinfo)
file. Section names are assumed distinct (ConfigParser merges duplicate
sections while reading). -/
abbrev Config := List (String × Options)

/-- Python exceptions that the script can raise, plus OS-level errors. -/
inductive PyErr where
  | noSection (sec : String)
  | noOption (sec opt : String)
  | keyError (key : String)
  | unboundLocal (var : String)
  | attrError
  | osError
  | ioError
  deriving DecidableEq, Repr

/-- First binding of a key in an association list. -/
def alistFind {α : Type} (l : List (String × α)) (k : String) : Option α :=
  match l with
  | [] => none
  | (k', v) :: rest => if k' = k then some v else alistFind rest k

/-- `SafeConfigParser.get(sec, opt)`: raises `NoSectionError` for a missing
section and `NoOptionError` for a missing option. -/
def cfgGet (cfg : Config) (sec opt : String) : Except PyErr String :=
  match alistFind cfg sec with
  | none => .error (.noSection sec)
  | some opts =>
    match alistFind opts opt with
    | none => .error (.noOption sec opt)
    | some v => .ok v

/-- `SafeConfigParser.has_option(sec, opt)`. -/
def cfgHasOption (cfg : Config) (sec opt : String) : Bool :=
  match alistFind cfg sec with
  | none => false
  | some opts => (alistFind opts opt).isSome

/-- `_tag_or_branch`: prefer the `tag` option, else read `branch` (which
raises `NoOptionError` when absent). -/
def tagOrBranch (cfg : Config) (lib : String) : Except PyErr String :=
  if cfgHasOption cfg lib "tag" then cfgGet cfg lib "tag"
  else cfgGet cfg lib "branch"

/-- `_type`: the lower-cased `type` option. -/
def typeOf (cfg : Config) (lib : String) : Except PyErr String :=
  match cfgGet cfg lib "type" with
  | .error e => .error e
  | .ok t => .ok (pyLower t)

/-! ## `_get_links`: the `link_from(\.\d+)?` scan -/

/-- `re.match(r"link_from(\.\d+)?", key)`: `none` when the key does not
start with `link_from`; otherwise `some g` where `g` is the text captured
by the optional group — a dot followed by the maximal nonempty digit run
immediately after the prefix, or `[]` when no such group matches. -/
def matchLinkFrom (key : List Char) : Option (List Char) :=
  match dropStart "link_from".data key with
  | none => none
  | some rest =>
    match rest with
    | '.' :: c :: cs =>
      if c.isDigit then some ('.' :: c :: cs.takeWhile Char.isDigit)
      else some []
    | _ => some []

/-- `_get_links` applied to the option list of a library section: for every
option key matching `link_from(\.\d+)?`, the pair
`("link_from" ++ suffix, "link_to" ++ suffix)`. -/
def getLinks (opts : Options) : List (String × String) :=
  match opts with
  | [] => []
  | (key, _) :: rest =>
    match matchLinkFrom key.data with
    | none => getLinks rest
    | some g =>
      ("link_from" ++ String.mk g, "link_to" ++ String.mk g) :: getLinks rest

/-! ## Providers and `_extdir_from_library` -/

/-- One entry of the `PROVIDERS` dictionary. -/
structure ProviderData where
  pathTemplate : String
  tarballPath : Option String
  zipballPath : Option String
  auth : Option String
  deriving DecidableEq, Repr

/-- The `PROVIDERS` dictionary from the source. -/
def PROVIDERS : List (String × ProviderData) :=
  [ ("github",
     { pathTemplate := "https://github.com/%s"
       tarballPath := some "/tarball/%s"
       zipballPath := some "/zipball/%s"
       auth := none }),
    ("gitorious",
     { pathTemplate := "http://gitorious.org/%s"
       tarballPath := some "/archive-tarball/%s"
       zipballPath := none
       auth := none }),
    ("bitbucket",
     { pathTemplate := "https://bitbucket.org/%s"
       tarballPath := some "/get/%s.tar.gz"
       zipballPath := some "/get/%s.zip"
       auth := none }) ]

/-- `_extdir_from_library`: the storage directory of a library under
`extroot`. For type `repo` the key is the `url` option itself, otherwise
the provider's `path_prefix` rendered with the url; a type missing from
`PROVIDERS` raises a `KeyError`. The key is sanitized by `reSubNonWord`. -/
def extdirFromLibrary (extroot : String) (cfg : Config) (lib : String) :
    Except PyErr String :=
  match cfgGet cfg lib "url" with
  | .error e => .error e
  | .ok url =>
    match typeOf cfg lib with
    | .error e => .error e
    | .ok repoType =>
      if repoType = "repo" then
        .ok (pyJoin extroot (reSubNonWord url))
      else
        match alistFind PROVIDERS repoType with
        | none => .error (.keyError repoType)
        | some pd =>
          .ok (pyJoin extroot (reSubNonWord (pyFormat pd.pathTemplate [url])))

/-! ## Filesystem and world state -/

/-- A filesystem entry: directory, regular file, or symbolic link. -/
inductive Entry where
  | dir
  | file
  | symlink (target : String)
  deriving DecidableEq, Repr

/-- A flat filesystem: an association list from path strings to entries.
Later operations shadow earlier bindings via `fsLookup`. -/
abbrev Fs := List (String × Entry)

/-- First entry recorded for a path. -/
def fsLookup : Fs → String → Option Entry
  | [], _ => none
  | (q, e) :: rest, p => if q = p then some e else fsLookup rest p

/-- Remove every binding of a path. -/
def fsRemove : Fs → String → Fs
  | [], _ => []
  | (q, e) :: rest, p =>
    if q = p then fsRemove rest p else (q, e) :: fsRemove rest p

/-- Bind a path to an entry, dropping any previous binding. -/
def fsSet (fs : Fs) (p : String) (e : Entry) : Fs :=
  (p, e) :: fsRemove fs p

/-- `os.path.isdir`. -/
def fsIsDir (fs : Fs) (p : String) : Bool :=
  match fsLookup fs p with
  | some .dir => true
  | _ => false

/-- `os.path.islink`. -/
def fsIsLink (fs : Fs) (p : String) : Bool :=
  match fsLookup fs p with
  | some (.symlink _) => true
  | _ => false

/-- `os.path.exists` (only consulted at points where the path cannot hold
a dangling symlink, so presence of a binding is the right notion). -/
def fsExists (fs : Fs) (p : String) : Bool :=
  (fsLookup fs p).isSome

/-- Effect of `os.system("rm -rf path")`: the path and everything below it
disappear. -/
def fsRmTree : Fs → String → Fs
  | [], _ => []
  | (q, e) :: rest, p =>
    if q = p ∨ strStartsWith q (p ++ "/") then fsRmTree rest p
    else (q, e) :: fsRmTree rest p

/-- Command-line arguments after `_args` has run (paths validated, and
`very_quiet` implies `quiet` in actual runs; the flags are kept separate
here because `_message` only consults `very_quiet`). -/
structure Args where
  quiet : Bool
  very_quiet : Bool
  force : Bool
  update : Bool
  link : Bool
  extroot : String
  libroot : String
  configfile : String
  deriving DecidableEq, Repr

/-- Whole-process state: filesystem, working directory, messages printed
by `_message`, shell commands passed to `os.system`, and the in-memory
linkinfo configuration. -/
structure World where
  fs : Fs
  cwd : String
  messages : List String
  executed : List String
  linkinfo : Config
  deriving DecidableEq, Repr

/-- A stateful, exception-throwing computation. An exception keeps the
world reached so far (mutations before an uncaught exception persist). -/
abbrev M (α : Type) := World → World × Except PyErr α

/-- `_message`: print unless `very_quiet`. -/
def message (a : Args) (msg : String) : M Unit := fun w =>
  (if a.very_quiet then w else { w with messages := w.messages ++ [msg] }, .ok ())

/-- `os.system`: record the command; the exit status is never inspected. -/
def runSystem (cmd : String) : M Unit := fun w =>
  ({ w with executed := w.executed ++ [cmd] }, .ok ())

/-- Fuel bound sufficient for every `os.makedirs`/`os.removedirs` walk on a
path: each step strictly shortens the path. -/
def pathFuel (p : String) : Nat := p.data.length + 1

/-- `os.makedirs(p)`: recursively create the missing ancestor chain, then
`mkdir p`. Errors (modelled as `osError`): empty name, an existing target,
or a parent that exists but is not a directory. On error the partially
created chain persists. -/
def makedirsF : Nat → String → Fs → Fs × Option PyErr
  | 0, _, fs => (fs, some .osError)
  | fuel + 1, p, fs =>
    if p = "" then (fs, some .osError)
    else
      let d := pyDirname p
      match (if d ≠ "" ∧ pyBasename p ≠ "" ∧ fsExists fs d = false then
               makedirsF fuel d fs
             else (fs, none)) with
      | (fs1, some e) => (fs1, some e)
      | (fs1, none) =>
        if fsExists fs1 p then (fs1, some .osError)
        else if d ≠ "" ∧ fsIsDir fs1 d = false then (fs1, some .osError)
        else (fsSet fs1 p .dir, none)

/-- `os.makedirs` as a stateful action. -/
def makedirs (p : String) : M Unit := fun w =>
  match makedirsF (pathFuel p) p w.fs with
  | (fs', some e) => ({ w with fs := fs' }, .error e)
  | (fs', none) => ({ w with fs := fs' }, .ok ())

/-! ## `_check_url` and `_check_and_run_cmd` -/

/-- Outside-world oracle for `urllib.urlopen` on a url with a handled (or
absent) scheme: either the raised `IOError` (socket failure, missing local
file) or the `status` header of the response, if any. -/
abbrev Net := String → Except PyErr (Option String)

/-- `urllib.splittype`: the scheme of a url, pattern `^([^/:]+):` — the
nonempty run of non-`/`, non-`:` characters before the first `:`,
lowercased; `none` when the url has no such prefix. -/
def urlType (u : String) : Option String :=
  let pre := u.data.takeWhile (fun c => !(c == ':' || c == '/'))
  match u.data.drop pre.length with
  | ':' :: _ => if pre = [] then none else some (pyLower (String.mk pre))
  | _ => none

/-- `urllib.urlopen`, split into its deterministic scheme dispatch and the
oracle for the outside world: a url whose scheme is neither `http` nor
`https` finds no `open_<scheme>` handler on `URLopener`, so
`open_unknown` raises `IOError('url error', 'unknown url type')` with no
network exchange at all; a handled url's outcome (a raised `IOError`, or
the optional `status` header of a response) is given by the oracle — a
url with no scheme falls back to a local file read, again decided by the
world. -/
def urlopen (net : Net) (u : String) : Except PyErr (Option String) :=
  match urlType u with
  | some s => if s = "http" ∨ s = "https" then net u else .error .ioError
  | none => net u

/-- `_check_url`: `None`/empty urls are invalid; a url not starting with
`"http"` is assumed valid with no network check; otherwise the url is
handed to `urllib.urlopen` — whose raised `IOError`s, in particular the
unknown-url-type error for an `http`-prefixed url with a non-HTTP(S)
scheme, propagate uncaught — and the first number in the reported status
(defaulting to `200 OK` when no status header is present) must lie in
`[200, 400)`. A status text without any digit would make
`re.search(...).group(1)` blow up on `None`. -/
def checkUrl (net : Net) (url : Option String) : Except PyErr Bool :=
  match url with
  | none => .ok false
  | some u =>
    if u = "" then .ok false
    else if strStartsWith u "http" = false then .ok true
    else
      match urlopen net u with
      | .error e => .error e
      | .ok hdr =>
        match firstNumber (hdr.getD "200 OK") with
        | none => .error .attrError
        | some n => .ok (decide (200 ≤ n ∧ n < 400))

/-- `_check_and_run_cmd`: run a truthy command (after announcing it), else
print the diagnostic naming the configuration file. -/
def checkAndRunCmd (a : Args) (cmd : Option String) (msg : String) : M Unit := fun w =>
  match cmd with
  | none => message a ("No such url, check " ++ a.configfile ++ " for errors.") w
  | some c =>
    if c = "" then message a ("No such url, check " ++ a.configfile ++ " for errors.") w
    else runSystem c (message a msg w).1

/-! ## `_ensure_dir` and the two fetch strategies -/

/-- `_ensure_dir`: make sure `extdir/subdir` exists, force-recreating it
when requested, and leave the working directory at `extdir`. Returns
whether the directory was (re)created. -/
def ensureDir (a : Args) (cfg : Config) (lib subdir : String) : M Bool := fun w =>
  match extdirFromLibrary a.extroot cfg lib with
  | .error e => (w, .error e)
  | .ok extdir =>
    let path := pyJoin extdir subdir
    let st :=
      if fsExists w.fs path then
        if a.force then
          let wa := (message a ("Removing old version of " ++ path) w).1
          ({ wa with executed := wa.executed ++ ["rm -rf " ++ path],
                     fs := fsRmTree wa.fs path }, true)
        else ((message a (path ++ " already exists") w).1, false)
      else (w, true)
    match (if st.2 then makedirs path st.1 else (st.1, .ok ())) with
    | (w2, .error e) => (w2, .error e)
    | (w2, .ok _) => ({ w2 with cwd := extdir }, .ok st.2)

/-- `_fetch_from_repo`: ensure the checkout directory and run the clone or
update command pipeline (whose exit status is never checked). -/
def fetchFromRepo (a : Args) (cfg : Config) (lib tagRef : String) : M Unit := fun w =>
  match cfgGet cfg lib "url" with
  | .error e => (w, .error e)
  | .ok url =>
    let prog := if a.quiet then "-q" else ""
    match ensureDir a cfg lib tagRef w with
    | (w1, .error e) => (w1, .error e)
    | (w1, .ok created) =>
      let msg := if created then "Cloning " ++ url ++ " into " ++ tagRef
        else "Updating " ++ tagRef ++ " from repo " ++ url
      let cmd := if created then
          "git clone " ++ prog ++ " " ++ url ++ " " ++ tagRef ++ " && cd " ++ tagRef ++
          " && git checkout " ++ prog ++ " " ++ tagRef ++
          " && git submodule update --init --recursive"
        else
          "cd " ++ tagRef ++ " && git fetch -t " ++ prog ++ " && git checkout --force " ++
          tagRef ++ " && git submodule update --init --recursive"
      checkAndRunCmd a (some cmd) msg w1

/-- `_fetch_from_provider`: on a newly created storage directory, build the
tarball/zipball candidate urls, validate them in order, and run the first
valid download pipeline. When neither candidate validates, the Python
locals `cmd` and `ball_type` were never assigned, so the trailing
`_check_and_run_cmd(cmd, ...)` call raises `UnboundLocalError` — the
intended "No such url" diagnostic branch is unreachable from here. -/
def fetchFromProvider (a : Args) (net : Net) (cfg : Config)
    (lib tagRef provider : String) : M Unit := fun w =>
  match ensureDir a cfg lib tagRef w with
  | (w1, .error e) => (w1, .error e)
  | (w1, .ok created) =>
    if created then
      match alistFind PROVIDERS provider with
      | none => (w1, .error (.keyError provider))
      | some pd =>
        match cfgGet cfg lib "url" with
        | .error e => (w1, .error e)
        | .ok pathSlice =>
          let urlTarball := pd.tarballPath.map
            (fun tp => pyFormat (pd.pathTemplate ++ tp) [pathSlice, tagRef])
          let urlZipball := pd.zipballPath.map
            (fun zp => pyFormat (pd.pathTemplate ++ zp) [pathSlice, tagRef])
          let auth := match pd.auth with
            | some u => "--user " ++ u
            | none => ""
          let prog := if a.quiet then "--silent" else "--progress"
          match checkUrl net urlTarball with
          | .error e => (w1, .error e)
          | .ok tarballOk =>
            if tarballOk then
              checkAndRunCmd a
                (some ("curl " ++ prog ++ " " ++ auth ++ " --insecure --location " ++
                  urlTarball.getD "" ++ " | tar zxf - -C " ++ tagRef ++
                  " --strip-components 1"))
                ("Fetching tarball " ++ pathSlice ++ "/" ++ tagRef ++ " from " ++
                  pyCapitalize provider) w1
            else
              match checkUrl net urlZipball with
              | .error e => (w1, .error e)
              | .ok zipballOk =>
                if zipballOk then
                  checkAndRunCmd a
                    (some ("curl " ++ prog ++ " " ++ auth ++ " --insecure --location " ++
                      urlZipball.getD "" ++ " | xargs -0 unzip"))
                    ("Fetching zipball " ++ pathSlice ++ "/" ++ tagRef ++ " from " ++
                      pyCapitalize provider) w1
                else (w1, .error (.unboundLocal "cmd"))
    else (w1, .ok ())

/-! ## `_do_update` -/

/-- One iteration of the `_do_update` loop body for a single library. -/
def updateOne (a : Args) (net : Net) (cfg : Config) (lib : String) : M Unit := fun w =>
  match tagOrBranch cfg lib with
  | .error e => (w, .error e)
  | .ok tagRef =>
    match typeOf cfg lib with
    | .error e => (w, .error e)
    | .ok provider =>
      if provider = "repo" then fetchFromRepo a cfg lib tagRef w
      else if (alistFind PROVIDERS provider).isSome then
        fetchFromProvider a net cfg lib tagRef provider w
      else message a ("Unknown library type '" ++ provider ++ "'") w

/-- The `_do_update` loop over the configured section names. -/
def updateLibs (a : Args) (net : Net) (cfg : Config) : List String → M Unit
  | [] => fun w => (w, .ok ())
  | lib :: rest => fun w =>
    match updateOne a net cfg lib w with
    | (w1, .error e) => (w1, .error e)
    | (w1, .ok _) => updateLibs a net cfg rest w1

/-- `_do_update`: iterate all libraries, restoring the saved working
directory afterwards (not restored when an exception escapes the loop). -/
def doUpdate (a : Args) (net : Net) (cfg : Config) : M Unit := fun w =>
  match updateLibs a net cfg (cfg.map (fun s => s.1)) w with
  | (w1, .error e) => (w1, .error e)
  | (w1, .ok _) => ({ w1 with cwd := w.cwd }, .ok ())

/-! ## `_do_unlink` -/

/-- Is some recorded path strictly below `d`? -/
def hasChild (fs : Fs) (d : String) : Bool :=
  fs.any (fun kv => strStartsWith kv.1 (d ++ "/"))

/-- `os.removedirs` with all `OSError`s swallowed (as `_do_unlink` does):
remove the directory if it is an empty directory, then walk up. -/
def removedirsBE : Nat → String → Fs → Fs
  | 0, _, fs => fs
  | fuel + 1, d, fs =>
    if d ≠ "" ∧ fsIsDir fs d = true ∧ hasChild fs d = false then
      removedirsBE fuel (pyDirname d) (fsRemove fs d)
    else fs

/-- One iteration of the `_do_unlink` loop: unlink a recorded destination
if it is a symlink, then try to remove the emptied parent chain. -/
def unlinkOne (fs : Fs) (link : String) : Fs :=
  let fs1 := if fsIsLink fs link then fsRemove fs link else fs
  removedirsBE (pathFuel link) (pyDirname link) fs1

/-- The `_do_unlink` loop over recorded destinations. -/
def unlinkAll : List (String × String) → Fs → Fs
  | [], fs => fs
  | (_, link) :: rest, fs => unlinkAll rest (unlinkOne fs link)

/-- Remove a section from a configuration. -/
def cfgRemoveSection (cfg : Config) (sec : String) : Config :=
  match cfg with
  | [] => []
  | (s, o) :: rest =>
    if s = sec then cfgRemoveSection rest sec
    else (s, o) :: cfgRemoveSection rest sec

/-- `_do_unlink`: process and clear the linkinfo section of the current
project root, if present. -/
def doUnlink (a : Args) : M Unit := fun w =>
  let sect := pyAbspath w.cwd a.libroot
  match alistFind w.linkinfo sect with
  | none => (w, .ok ())
  | some items =>
    ({ w with fs := unlinkAll items w.fs,
              linkinfo := cfgRemoveSection w.linkinfo sect }, .ok ())

/-! ## `_do_link` -/

/-- Set an option in an option list (`ConfigParser.set`): replace the
first binding or append. -/
def optSet (opts : Options) (k v : String) : Options :=
  match opts with
  | [] => [(k, v)]
  | (k', v') :: rest => if k' = k then (k, v) :: rest else (k', v') :: optSet rest k v

/-- Replace the option list of a section. -/
def alistSet (cfg : Config) (sec : String) (opts : Options) : Config :=
  match cfg with
  | [] => []
  | (s, o) :: rest =>
    if s = sec then (s, opts) :: rest else (s, o) :: alistSet rest sec opts

/-- Record a created destination in the linkinfo data: next sequential
numeric key in the project-root section (adding the section first when
missing, as the `NoSectionError` handler does). -/
def linkinfoRecord (li : Config) (sect dest : String) : Config :=
  match alistFind li sect with
  | some opts => alistSet li sect (optSet opts (toString (opts.length + 1)) dest)
  | none => li ++ [(sect, [("1", dest)])]

/-- The configuration-only part of one `_do_link` loop body: the absolute
source and destination of the symlink. Evaluation order of the failing
lookups matches the source (`extdir`, then tag, then `from`, then `to`). -/
def resolvePair (a : Args) (cfg : Config) (lib fromKey toKey : String) :
    Except PyErr (String × String) :=
  match extdirFromLibrary a.extroot cfg lib with
  | .error e => .error e
  | .ok extdir =>
    match tagOrBranch cfg lib with
    | .error e => .error e
    | .ok tagRef =>
      match cfgGet cfg lib fromKey with
      | .error e => .error e
      | .ok fromRel =>
        match cfgGet cfg lib toKey with
        | .error e => .error e
        | .ok toRel =>
          .ok (pyJoin (pyJoin extdir tagRef) fromRel, pyJoin a.libroot toRel)

/-- The filesystem part of one `_do_link` loop body: create the parent
chain when needed, drop a stale symlink, and create the new one unless
something else occupies the destination. -/
def fsApplyPair (lf lt : String) (fs : Fs) : Fs × Option PyErr :=
  let d := pyDirname lt
  match (if fsIsDir fs d then (fs, none) else makedirsF (pathFuel d) d fs) with
  | (fs1, some e) => (fs1, some e)
  | (fs1, none) =>
    let fs2 := if fsIsLink fs1 lt then fsRemove fs1 lt else fs1
    let fs3 := if fsExists fs2 lt then fs2 else fsSet fs2 lt (.symlink lf)
    (fs3, none)

/-- One `_do_link` body with its observable side effects: filesystem
change, the progress message (printed only after `os.makedirs` succeeded,
as in the source), and the linkinfo record of the absolute destination. -/
def fsLinkStep (a : Args) (lf lt : String) : M Unit := fun w =>
  match fsApplyPair lf lt w.fs with
  | (fs', some e) => ({ w with fs := fs' }, .error e)
  | (fs', none) =>
    let w2 := (message a ("Creating symlink from " ++ lf ++ " to " ++ lt)
      { w with fs := fs' }).1
    let sect := pyAbspath w2.cwd a.libroot
    let dest := pyAbspath w2.cwd lt
    ({ w2 with linkinfo := linkinfoRecord w2.linkinfo sect dest }, .ok ())

/-- One `_do_link` loop body for one link pair. -/
def linkPair (a : Args) (cfg : Config) (lib fromKey toKey : String) : M Unit := fun w =>
  match resolvePair a cfg lib fromKey toKey with
  | .error e => (w, .error e)
  | .ok (lf, lt) => fsLinkStep a lf lt w

/-- The inner `_do_link` loop over the link pairs of one library. -/
def linkPairs (a : Args) (cfg : Config) (lib : String) :
    List (String × String) → M Unit
  | [] => fun w => (w, .ok ())
  | (fk, tk) :: rest => fun w =>
    match linkPair a cfg lib fk tk w with
    | (w1, .error e) => (w1, .error e)
    | (w1, .ok _) => linkPairs a cfg lib rest w1

/-- The outer `_do_link` loop over configured libraries. -/
def linkLibs (a : Args) (cfg : Config) : Config → M Unit
  | [] => fun w => (w, .ok ())
  | (lib, opts) :: rest => fun w =>
    match linkPairs a cfg lib (getLinks opts) w with
    | (w1, .error e) => (w1, .error e)
    | (w1, .ok _) => linkLibs a cfg rest w1

/-- `_do_link`. -/
def doLink (a : Args) (cfg : Config) : M Unit :=
  linkLibs a cfg cfg

/-- `run`: the update pass when enabled, then unlink and link passes when
enabled. -/
def runMain (a : Args) (net : Net) (cfg : Config) : M Unit := fun w =>
  match (if a.update then doUpdate a net cfg w else (w, .ok ())) with
  | (w1, .error e) => (w1, .error e)
  | (w1, .ok _) =>
    if a.link then
      match doUnlink a w1 with
      | (w2, .error e) => (w2, .error e)
      | (w2, .ok _) => doLink a cfg w2
    else (w1, .ok ())

/-! ## Spec-side predicates (used to state claims, never by the embedding) -/

/-- The claim's words for C6: the url uses an HTTP(S) scheme. -/
def usesHttpScheme (u : String) : Bool :=
  strStartsWith u "http://" || strStartsWith u "https://"

/-- The claim's words for C10: a key of the exact form `link_from` or
`link_from.<digits>`. -/
def exactLinkFromForm (key : String) : Bool :=
  match dropStart "link_from".data key.data with
  | some [] => true
  | some ('.' :: ds) => ds ≠ [] && ds.all Char.isDigit
  | _ => false

/-- Does a dot-and-digit group immediately follow (the claim's wording in
C10), for the remainder of a key after the `link_from` prefix? -/
def dotDigitFollows (rest : List Char) : Bool :=
  match rest with
  | '.' :: c :: _ => c.isDigit
  | _ => false

/-! ## Proof-support definitions for the link pass -/

/-- The `from`-path of the last pair in a list that targets a given
destination path, if any. -/
def lastFrom : List (String × String) → String → Option String
  | [], _ => none
  | (lf, lt) :: rest, q =>
    match lastFrom rest q with
    | some x => some x
    | none => if lt = q then some lf else none

/-- Run a sequence of already-resolved link pairs (the filesystem-facing
remainder of the `_do_link` loop). -/
def runSteps (a : Args) : List (String × String) → M Unit
  | [] => fun w => (w, .ok ())
  | (lf, lt) :: rest => fun w =>
    match fsLinkStep a lf lt w with
    | (w1, .error e) => (w1, .error e)
    | (w1, .ok _) => runSteps a rest w1

/-- Resolve all link pairs of one library (configuration-only). -/
def resolvePairsList (a : Args) (cfg : Config) (lib : String) :
    List (String × String) → Except PyErr (List (String × String))
  | [] => .ok []
  | (fk, tk) :: rest =>
    match resolvePair a cfg lib fk tk with
    | .error e => .error e
    | .ok p =>
      match resolvePairsList a cfg lib rest with
      | .error e => .error e
      | .ok ps => .ok (p :: ps)

/-- Resolve all link pairs of a whole configuration (configuration-only). -/
def resolvedAll (a : Args) (cfg : Config) : Config → Except PyErr (List (String × String))
  | [] => .ok []
  | (lib, opts) :: rest =>
    match resolvePairsList a cfg lib (getLinks opts) with
    | .error e => .error e
    | .ok ps =>
      match resolvedAll a cfg rest with
      | .error e => .error e
      | .ok qs => .ok (ps ++ qs)

/-! ## Concrete fixtures used by witnesses and counterexamples -/

/-- Default arguments: both passes on, no quieting, no force. -/
def exArgs : Args :=
  { quiet := false, very_quiet := false, force := false, update := true,
    link := true, extroot := "/ext", libroot := "/proj", configfile := "libs.ini" }

/-- Arguments with `-q` only. -/
def exArgsQuiet : Args := { exArgs with quiet := true }

/-- Arguments with `-Q` (which, in `_args`, also sets `quiet`). -/
def exArgsVeryQuiet : Args := { exArgs with quiet := true, very_quiet := true }

/-- Arguments with `--force`. -/
def exArgsForce : Args := { exArgs with force := true }

/-- A network on which every request reports status 404. -/
def net404 : Net := fun _ => .ok (some "404 Not Found")

/-- The spec's example library, hosted on the github provider. -/
def cfgDojo : Config :=
  [("Dojo", [("type", "Github"), ("url", "dojo/dojo"), ("tag", "1.7.1")])]

/-- A library with an unrecognized type and one link pair. -/
def cfgUnknown : Config :=
  [("A", [("type", "Foo"), ("url", "u"), ("tag", "1.0"),
          ("link_from", "."), ("link_to", "x")])]

/-- A repo-type library with one link pair into the project root. -/
def cfgRepoLink : Config :=
  [("A", [("type", "repo"), ("url", "u"), ("tag", "1.0"),
          ("link_from", "."), ("link_to", "x")])]

/-- A repo-type library whose link destination sits below a path occupied
by a regular file. -/
def cfgRepoDeepLink : Config :=
  [("A", [("type", "repo"), ("url", "u"), ("tag", "1.0"),
          ("link_from", "."), ("link_to", "d/x")])]

/-- Initial world: storage and project roots exist, nothing else. -/
def worldRoots : World :=
  { fs := [("/ext", .dir), ("/proj", .dir)], cwd := "/start",
    messages := [], executed := [], linkinfo := [] }

/-- World where a regular file blocks the parent of a link destination. -/
def worldBlocked : World :=
  { fs := [("/ext", .dir), ("/proj", .dir), ("/proj/d", .file)], cwd := "/start",
    messages := [], executed := [], linkinfo := [] }

/-- Equality of `Except` results is decidable (needed so concrete runs of
the embedding can be settled by `decide`). -/
instance instDecEqExceptPy {ε α : Type} [DecidableEq ε] [DecidableEq α] :
    DecidableEq (Except ε α) := fun x y =>
  match x, y with
  | .ok a, .ok b =>
    if h : a = b then isTrue (by rw [h]) else isFalse (by simp [h])
  | .error e, .error f =>
    if h : e = f then isTrue (by rw [h]) else isFalse (by simp [h])
  | .ok _, .error _ => isFalse (by simp)
  | .error _, .ok _ => isFalse (by simp)

/-! ## General helper lemmas -/

theorem dropStart_append (p s : List Char) : dropStart p (p ++ s) = some s := by
  induction p with
  | nil => simp [dropStart]
  | cons c cs ih => simp [dropStart, ih]

theorem matchLinkFrom_no_group (rest : List Char) (h : dotDigitFollows rest = false) :
    matchLinkFrom ("link_from".data ++ rest) = some [] := by
  simp only [matchLinkFrom, dropStart_append]
  split
  · rename_i c cs
    simp [dotDigitFollows] at h
    simp [h]
  · rfl

theorem cfgHasOption_true_of_get_ok {cfg : Config} {sec opt v : String}
    (h : cfgGet cfg sec opt = .ok v) : cfgHasOption cfg sec opt = true := by
  unfold cfgHasOption
  cases hs : alistFind cfg sec with
  | none => unfold cfgGet at h; rw [hs] at h; simp at h
  | some opts =>
    show (alistFind opts opt).isSome = true
    cases ho : alistFind opts opt with
    | none =>
      unfold cfgGet at h
      rw [hs] at h
      have h2 : (match alistFind opts opt with
        | none => (Except.error (PyErr.noOption sec opt) : Except PyErr String)
        | some v => Except.ok v) = Except.ok v := h
      rw [ho] at h2
      simp at h2
    | some x => rfl

/-! ## Claim C1 -/

/-- C1 (counterexample): for the library `Dojo` of type `Github` with url
`dojo/dojo` the storage namespace key is `https://github.com/dojo/dojo`,
but the computed directory is `/ext/https___github_com_dojo_dojo` — each
of the three non-word characters of `://` yields its own filler — and not
the run-collapsed `/ext/https_github_com_dojo_dojo` the claim states. -/
theorem C1_counterexample_runs_not_collapsed :
    extdirFromLibrary "/ext" cfgDojo "Dojo" = .ok "/ext/https___github_com_dojo_dojo" ∧
    specCollapseRuns "https://github.com/dojo/dojo" = "https_github_com_dojo_dojo" ∧
    extdirFromLibrary "/ext" cfgDojo "Dojo" ≠
      .ok (pyJoin "/ext" (specCollapseRuns "https://github.com/dojo/dojo")) := by
  decide

/-- C1 (amended): the storage directory is the shared root joined with the
storage namespace key (the locator url for type `repo`, else the provider
base url rendered from the locator) in which every single non-word
character is replaced by one filler character (so a run of k non-word
characters yields k fillers); the computation is a pure function of the
key, hence deterministic across repeated calls. For the key
`https://github.com/dojo/dojo` the directory name is
`https___github_com_dojo_dojo`. -/
theorem C1_storage_dir_charwise_normalization :
    (∀ extroot url : String,
      extdirFromLibrary extroot [("L", [("type", "repo"), ("url", url)])] "L" =
        .ok (pyJoin extroot (reSubNonWord url))) ∧
    (∀ extroot slice : String,
      extdirFromLibrary extroot [("L", [("type", "Github"), ("url", slice)])] "L" =
        .ok (pyJoin extroot (reSubNonWord (pyFormat "https://github.com/%s" [slice])))) ∧
    extdirFromLibrary "/ext" cfgDojo "Dojo" = .ok "/ext/https___github_com_dojo_dojo" ∧
    (∀ (extroot : String) (cfg : Config) (lib : String),
      extdirFromLibrary extroot cfg lib = extdirFromLibrary extroot cfg lib) := by
  refine ⟨fun extroot url => rfl, fun extroot slice => rfl, by decide, fun _ _ _ => rfl⟩

/-! ## Claim C2 -/

/-- C2: with a github library whose tarball and zipball urls both report
status 404, `_fetch_from_provider` on a newly created storage directory
raises `UnboundLocalError` on the never-assigned local `cmd` instead of
printing the "No such url" diagnostic — no message is emitted at all and
the run dies. This contradicts the unreachable diagnostic branch of
`_check_and_run_cmd`, which was clearly intended to handle this case. -/
theorem C2_validation_failure_raises_unbound_local :
    (fetchFromProvider exArgs net404 cfgDojo "Dojo" "1.7.1" "github" worldRoots).2 =
      .error (.unboundLocal "cmd") ∧
    (fetchFromProvider exArgs net404 cfgDojo "Dojo" "1.7.1" "github" worldRoots).1.messages
      = [] := by
  decide

/-! ## Claim C3 -/

/-- C3 (counterexample): with the very-quiet flag set, reaching the
validation-failure branch of `_check_and_run_cmd` (falsy command) emits
nothing at all: `_message` gates every message, the final diagnostic
included, on `very_quiet`. -/
theorem C3_counterexample_very_quiet_suppresses_diagnostic :
    exArgsVeryQuiet.very_quiet = true ∧
    (checkAndRunCmd exArgsVeryQuiet none "msg" worldRoots).1.messages = [] := by
  decide

/-- C3 (amended): when the validation-failure branch of
`_check_and_run_cmd` is reached with a falsy command, the diagnostic
naming the configuration file is emitted exactly when `very_quiet` is
unset: the quiet flag alone never suppresses it, the very-quiet flag
always does. -/
theorem C3_diagnostic_vs_quiet_flags :
    ∀ (a : Args) (w : World) (m : String),
      (a.very_quiet = false →
        (checkAndRunCmd a none m w).1.messages =
          w.messages ++ ["No such url, check " ++ a.configfile ++ " for errors."]) ∧
      (a.very_quiet = true →
        (checkAndRunCmd a none m w).1.messages = w.messages) := by
  intro a w m
  constructor <;> intro h <;> simp [checkAndRunCmd, message, h]

/-- Witness for C3: with only the quiet flag set, the diagnostic is
emitted. -/
theorem C3_diagnostic_vs_quiet_flags_witness :
    (checkAndRunCmd exArgsQuiet none "m" worldRoots).1.messages =
      worldRoots.messages ++
        ["No such url, check " ++ exArgsQuiet.configfile ++ " for errors."] :=
  (C3_diagnostic_vs_quiet_flags exArgsQuiet worldRoots "m").1 rfl

/-! ## Claim C4 -/

/-- C4: `_tag_or_branch` returns the `tag` value whenever one is
configured (any `branch` value is ignored), returns the `branch` value
when only a branch is configured, and fails — with the `NoOptionError`
for `branch` that realizes the spec's `MissingVersionReference`
condition — when a configured library has neither option. -/
theorem C4_version_reference_resolution :
    ∀ (cfg : Config) (lib : String),
      (∀ v, cfgGet cfg lib "tag" = .ok v → tagOrBranch cfg lib = .ok v) ∧
      (cfgHasOption cfg lib "tag" = false →
        ∀ v, cfgGet cfg lib "branch" = .ok v → tagOrBranch cfg lib = .ok v) ∧
      (alistFind cfg lib ≠ none → cfgHasOption cfg lib "tag" = false →
        cfgHasOption cfg lib "branch" = false →
        tagOrBranch cfg lib = .error (.noOption lib "branch")) := by
  intro cfg lib
  refine ⟨fun v h => ?_, fun ht v h => ?_, fun hsec ht hb => ?_⟩
  · unfold tagOrBranch
    rw [if_pos (cfgHasOption_true_of_get_ok h)]
    exact h
  · unfold tagOrBranch
    rw [if_neg (by simp [ht])]
    exact h
  · unfold tagOrBranch
    rw [if_neg (by simp [ht])]
    cases hs : alistFind cfg lib with
    | none => exact absurd hs hsec
    | some opts =>
      have hb2 : (alistFind opts "branch").isSome = false := by
        unfold cfgHasOption at hb; rw [hs] at hb; exact hb
      unfold cfgGet
      rw [hs]
      cases ho : alistFind opts "branch" with
      | none => simp [ho]
      | some x => rw [ho] at hb2; simp at hb2

/-- Witness for C4: tag preferred over branch; branch used when only it
exists; neither configured fails with the `branch` `NoOptionError`. -/
theorem C4_version_reference_resolution_witness :
    tagOrBranch [("A", [("tag", "1.0"), ("branch", "main")])] "A" = .ok "1.0" ∧
    tagOrBranch [("B", [("branch", "main")])] "B" = .ok "main" ∧
    tagOrBranch [("C", [("type", "repo")])] "C" = .error (.noOption "C" "branch") :=
  ⟨(C4_version_reference_resolution [("A", [("tag", "1.0"), ("branch", "main")])] "A").1
      "1.0" (by decide),
   (C4_version_reference_resolution [("B", [("branch", "main")])] "B").2.1
      (by decide) "main" (by decide),
   (C4_version_reference_resolution [("C", [("type", "repo")])] "C").2.2
      (by decide) (by decide) (by decide)⟩

/-! ## Claim C6 -/

/-- C6 (counterexample): `httpz://x` does not use an HTTP(S) scheme, yet
`_check_url` does not treat it as the claimed assumed-valid-without-check:
the url passes the `url.startswith("http")` test and is handed to
`urllib.urlopen`, whose scheme dispatch finds no handler for `httpz` and
raises `IOError('url error', 'unknown url type')` — the validation raises
instead of returning valid, whatever the network would have answered (a
404-answering and a 200-answering world raise alike, without any network
exchange). -/
theorem C6_counterexample_scheme_vs_startswith :
    usesHttpScheme "httpz://x" = false ∧
    checkUrl net404 (some "httpz://x") = .error .ioError ∧
    checkUrl (fun _ => .ok (some "200 OK")) (some "httpz://x") = .error .ioError := by
  decide

/-- C6 (amended): a nonempty candidate url not starting with the four
characters `http` is accepted with no network request (the result does not
depend on the network); a url starting with `http` whose scheme — the text
before the first `:` — is neither `http` nor `https` makes `urllib.urlopen`
raise `IOError` (unknown url type) without consulting the network, and
`_check_url` propagates that exception instead of returning a verdict; for
a url with an actual HTTP(S) scheme the request decides: a raised `IOError`
propagates, a response whose status's first number is `n` is valid iff
`200 ≤ n < 400`, and a missing status header is treated as `200 OK`. In
particular 404 is invalid while 200 and 301 are valid. -/
theorem C6_check_url_semantics :
    (∀ (net : Net) (u : String), u ≠ "" → strStartsWith u "http" = false →
      checkUrl net (some u) = .ok true) ∧
    (∀ (net : Net) (u s : String), strStartsWith u "http" = true →
      urlType u = some s → s ≠ "http" → s ≠ "https" →
      checkUrl net (some u) = .error .ioError) ∧
    (∀ (net : Net) (u s : String) (n : Nat), strStartsWith u "http" = true →
      (urlType u = some "http" ∨ urlType u = some "https") →
      net u = .ok (some s) → firstNumber s = some n →
      checkUrl net (some u) = .ok (decide (200 ≤ n ∧ n < 400))) ∧
    (∀ (net : Net) (u : String) (e : PyErr), strStartsWith u "http" = true →
      (urlType u = some "http" ∨ urlType u = some "https") →
      net u = .error e → checkUrl net (some u) = .error e) ∧
    (∀ (net : Net) (u : String), strStartsWith u "http" = true →
      (urlType u = some "http" ∨ urlType u = some "https") →
      net u = .ok none → checkUrl net (some u) = .ok true) ∧
    checkUrl net404 (some "https://h/x") = .ok false ∧
    checkUrl (fun _ => .ok (some "200 OK")) (some "https://h/x") = .ok true ∧
    checkUrl (fun _ => .ok (some "301 Moved Permanently")) (some "https://h/x") =
      .ok true := by
  refine ⟨fun net u hu hs => ?_, fun net u s hs hty hn1 hn2 => ?_,
    fun net u s n hs hty hnet hnum => ?_, fun net u e hs hty hnet => ?_,
    fun net u hs hty hnet => ?_, by decide, by decide, by decide⟩
  · simp [checkUrl, hu, hs]
  · have hu : u ≠ "" := by rintro rfl; exact absurd hs (by decide)
    simp [checkUrl, urlopen, hu, hs, hty, hn1, hn2]
  · have hu : u ≠ "" := by rintro rfl; exact absurd hs (by decide)
    rcases hty with hty | hty
    · simp [checkUrl, urlopen, hu, hs, hty, hnet, hnum]
    · simp [checkUrl, urlopen, hu, hs, hty, hnet, hnum]
  · have hu : u ≠ "" := by rintro rfl; exact absurd hs (by decide)
    rcases hty with hty | hty
    · simp [checkUrl, urlopen, hu, hs, hty, hnet]
    · simp [checkUrl, urlopen, hu, hs, hty, hnet]
  · have hu : u ≠ "" := by rintro rfl; exact absurd hs (by decide)
    rcases hty with hty | hty
    · simp [checkUrl, urlopen, hu, hs, hty, hnet]
      rfl
    · simp [checkUrl, urlopen, hu, hs, hty, hnet]
      rfl

/-- Witness for C6: a non-http url is valid regardless of a 404-answering
network; an `http`-prefixed url with scheme `httpz` raises the
unknown-url-type `IOError`; an https url with status 404 is invalid; a
socket-level `IOError` on an http url propagates; a missing status header
means valid. -/
theorem C6_check_url_semantics_witness :
    checkUrl net404 (some "ftp://host/f.tar.gz") = .ok true ∧
    checkUrl net404 (some "httpz://y") = .error .ioError ∧
    checkUrl net404 (some "https://h/y") = .ok (decide (200 ≤ 404 ∧ 404 < 400)) ∧
    checkUrl (fun _ => .error .osError) (some "http://h") = .error .osError ∧
    checkUrl (fun _ => .ok none) (some "http://h") = .ok true :=
  ⟨C6_check_url_semantics.1 net404 "ftp://host/f.tar.gz" (by decide) (by decide),
   C6_check_url_semantics.2.1 net404 "httpz://y" "httpz" (by decide) (by decide)
     (by decide) (by decide),
   C6_check_url_semantics.2.2.1 net404 "https://h/y" "404 Not Found" 404 (by decide)
     (by decide) rfl (by decide),
   C6_check_url_semantics.2.2.2.1 (fun _ => .error .osError) "http://h" .osError
     (by decide) (by decide) rfl,
   C6_check_url_semantics.2.2.2.2.1 (fun _ => .ok none) "http://h" (by decide)
     (by decide) rfl⟩

/-! ## Claim C7 -/

/-- C7: on a library whose option keys are exactly `link_from`, `link_to`,
`link_from.1`, `link_to.1` (in that order, with arbitrary values),
`_get_links` returns exactly the two pairs, suffixes matched, in the order
of the `link_from` keys. -/
theorem C7_get_links_two_pairs :
    ∀ v1 v2 v3 v4 : String,
      getLinks [("link_from", v1), ("link_to", v2), ("link_from.1", v3), ("link_to.1", v4)]
        = [("link_from", "link_to"), ("link_from.1", "link_to.1")] := by
  intro v1 v2 v3 v4
  rfl

/-! ## Claim C10 -/

/-- C10 (counterexample): `link_from.1x` begins with `link_from` and is
not of the exact form `link_from` or `link_from.<digits>`, yet the pair it
produces is `("link_from.1", "link_to.1")` — the dot-and-digits group
`.1` does match right after the prefix — not the base pair the claim
predicts. -/
theorem C10_counterexample_dot_digits_tail :
    strStartsWith "link_from.1x" "link_from" = true ∧
    exactLinkFromForm "link_from.1x" = false ∧
    getLinks [("link_from.1x", "v")] = [("link_from.1", "link_to.1")] ∧
    getLinks [("link_from.1x", "v")] ≠ [("link_from", "link_to")] := by
  decide

/-- C10 (amended): every option key beginning with `link_from` produces a
pair; when no dot-and-digits group immediately follows the prefix the pair
is the base `("link_from", "link_to")` — in particular for
`link_from_backup` and `link_fromx` — while a key like `link_from.1x`
yields the pair of the digits group instead. -/
theorem C10_unanchored_match_pairs :
    (∀ (rest : List Char) (v : String), dotDigitFollows rest = false →
      getLinks [(String.mk ("link_from".data ++ rest), v)] = [("link_from", "link_to")]) ∧
    getLinks [("link_from_backup", "v")] = [("link_from", "link_to")] ∧
    getLinks [("link_fromx", "w")] = [("link_from", "link_to")] := by
  refine ⟨fun rest v h => ?_, by decide, by decide⟩
  simp only [getLinks, matchLinkFrom_no_group rest h]
  rfl

/-- Witness for C10: a key with a non-dot character after the prefix. -/
theorem C10_unanchored_match_pairs_witness :
    getLinks [(String.mk ("link_from".data ++ "_extra".data), "v")] =
      [("link_from", "link_to")] :=
  C10_unanchored_match_pairs.1 "_extra".data "v" (by decide)

/-! ## Filesystem lookup lemmas -/

theorem fsLookup_fsRemove (fs : Fs) (p q : String) :
    fsLookup (fsRemove fs p) q = if q = p then none else fsLookup fs q := by
  induction fs with
  | nil => simp [fsRemove, fsLookup]
  | cons kv rest ih =>
    obtain ⟨k, e⟩ := kv
    simp only [fsRemove]
    by_cases hk : k = p
    · rw [if_pos hk, ih]
      by_cases hq : q = p
      · simp [hq]
      · rw [if_neg hq, if_neg hq]
        simp only [fsLookup]
        rw [if_neg (by rw [hk]; exact fun h => hq h.symm)]
    · rw [if_neg hk]
      simp only [fsLookup]
      by_cases hkq : k = q
      · rw [if_pos hkq, if_neg (fun h : q = p => hk (hkq.trans h)), if_pos hkq]
      · rw [if_neg hkq, ih]
        by_cases hq : q = p
        · simp [hq]
        · rw [if_neg hq, if_neg hq, if_neg hkq]

theorem fsLookup_fsSet (fs : Fs) (p q : String) (e : Entry) :
    fsLookup (fsSet fs p e) q = if p = q then some e else fsLookup fs q := by
  unfold fsSet
  simp only [fsLookup]
  by_cases hq : p = q
  · simp [hq]
  · rw [if_neg hq, if_neg hq, fsLookup_fsRemove,
      if_neg (show ¬ q = p from fun h => hq h.symm)]

theorem fsLookup_fsRmTree (fs : Fs) (p q : String) :
    fsLookup (fsRmTree fs p) q =
      if q = p ∨ strStartsWith q (p ++ "/") = true then none else fsLookup fs q := by
  induction fs with
  | nil => simp [fsRmTree, fsLookup]
  | cons kv rest ih =>
    obtain ⟨k, e⟩ := kv
    simp only [fsRmTree]
    by_cases hk : k = p ∨ strStartsWith k (p ++ "/") = true
    · rw [if_pos hk, ih]
      by_cases hq : q = p ∨ strStartsWith q (p ++ "/") = true
      · simp [hq]
      · rw [if_neg hq, if_neg hq]
        simp only [fsLookup]
        rw [if_neg (show ¬ k = q from fun h => hq (h ▸ hk))]
    · rw [if_neg hk]
      simp only [fsLookup]
      by_cases hkq : k = q
      · rw [if_pos hkq, if_neg (hkq ▸ hk), if_pos hkq]
      · rw [if_neg hkq, ih]
        by_cases hq : q = p ∨ strStartsWith q (p ++ "/") = true
        · simp [hq]
        · rw [if_neg hq, if_neg hq, if_neg hkq]

/-! ## Evaluation lemmas for `os.makedirs` -/

theorem pyBasename_empty : pyBasename "" = "" := rfl

theorem ne_empty_of_pyBasename {p : String} (h : pyBasename p ≠ "") : p ≠ "" := by
  intro he
  rw [he] at h
  exact h pyBasename_empty

/-- One-level `makedirs`: the parent exists as a directory, the target does
not exist; a single `mkdir` happens. Any successor fuel suffices. -/
theorem makedirsF_parent_dir (n : Nat) (p : String) (fs : Fs)
    (hp : p ≠ "") (hnex : fsExists fs p = false)
    (hd : fsLookup fs (pyDirname p) = some .dir) :
    makedirsF (n + 1) p fs = (fsSet fs p .dir, none) := by
  have hex : fsExists fs (pyDirname p) = true := by
    simp [fsExists, hd]
  have hisdir : fsIsDir fs (pyDirname p) = true := by
    simp [fsIsDir, hd]
  simp only [makedirsF]
  rw [if_neg hp]
  rw [if_neg (show ¬(pyDirname p ≠ "" ∧ pyBasename p ≠ "" ∧
    fsExists fs (pyDirname p) = false) from by simp [hex])]
  simp only []
  rw [if_neg (show ¬ fsExists fs p = true from by simp [hnex])]
  rw [if_neg (show ¬(pyDirname p ≠ "" ∧ fsIsDir fs (pyDirname p) = false) from by
    simp [hisdir])]

/-- Two-level `makedirs`: the grandparent is a directory, parent and target
are absent; both are created. The standard fuel suffices. -/
theorem makedirsF_two_levels (p : String) (fs : Fs)
    (hb : pyBasename p ≠ "") (hd : pyDirname p ≠ "")
    (hnex : fsExists fs p = false) (hnexd : fsExists fs (pyDirname p) = false)
    (hdd : fsLookup fs (pyDirname (pyDirname p)) = some .dir)
    (hne : pyDirname p ≠ p) :
    makedirsF (pathFuel p) p fs =
      (fsSet (fsSet fs (pyDirname p) .dir) p .dir, none) := by
  have hp : p ≠ "" := ne_empty_of_pyBasename hb
  obtain ⟨k, hk⟩ : ∃ k, p.data.length = k + 1 := by
    cases p with
    | mk l =>
      cases l with
      | nil => exact absurd rfl hp
      | cons c cs => exact ⟨cs.length, rfl⟩
  have hset : fsLookup (fsSet fs (pyDirname p) .dir) p = fsLookup fs p := by
    rw [fsLookup_fsSet, if_neg hne]
  have hnex2 : ¬ fsExists (fsSet fs (pyDirname p) .dir) p = true := by
    simp [fsExists, hset, show (fsLookup fs p).isSome = false from hnex]
  have hdir2 : fsIsDir (fsSet fs (pyDirname p) .dir) (pyDirname p) = true := by
    simp [fsIsDir, fsLookup_fsSet]
  simp only [pathFuel, makedirsF]
  rw [if_neg hp]
  rw [if_pos ⟨hd, hb, hnexd⟩]
  rw [hk, makedirsF_parent_dir k (pyDirname p) fs hd hnexd hdd]
  simp only []
  rw [if_neg hnex2]
  rw [if_neg (show ¬(pyDirname p ≠ "" ∧
    fsIsDir (fsSet fs (pyDirname p) .dir) (pyDirname p) = false) from by simp [hdir2])]

/-! ## Claim C5 -/

/-- C5 (counterexample): a run over a library of unknown type `Foo` with a
link pair: the update pass skips it with the diagnostic, but the link pass
then raises `KeyError` inside `_extdir_from_library` (the `PROVIDERS`
lookup), so the unknown type does abort the whole run. -/
theorem C5_counterexample_unknown_type_aborts_run :
    (runMain exArgs net404 cfgUnknown worldRoots).2 = .error (.keyError "foo") ∧
    (runMain exArgs net404 cfgUnknown worldRoots).1.messages =
      ["Unknown library type 'foo'"] := by
  decide

/-- C5 (amended): during the update pass, a configured library whose
version reference resolves and whose lower-cased type is neither `repo`
nor a known provider key is skipped with the logged `Unknown library type`
diagnostic, without raising, and the loop proceeds to the remaining
libraries. (By the counterexample, a subsequent link pass over the same
configuration nevertheless raises a `KeyError` when such a library
declares link pairs, so the unknown type can abort the run as a whole.) -/
theorem C5_unknown_type_update_skips :
    ∀ (a : Args) (net : Net) (cfg : Config) (lib t ty : String) (w : World)
      (rest : List String),
      tagOrBranch cfg lib = .ok t →
      typeOf cfg lib = .ok ty →
      ty ≠ "repo" →
      alistFind PROVIDERS ty = none →
      updateOne a net cfg lib w =
        ((message a ("Unknown library type '" ++ ty ++ "'") w).1, .ok ()) ∧
      updateLibs a net cfg (lib :: rest) w =
        updateLibs a net cfg rest
          ((message a ("Unknown library type '" ++ ty ++ "'") w).1) := by
  intro a net cfg lib t ty w rest h1 h2 h3 h4
  have hone : updateOne a net cfg lib w =
      ((message a ("Unknown library type '" ++ ty ++ "'") w).1, .ok ()) := by
    simp only [updateOne, h1, h2]
    rw [if_neg h3]
    simp [h4, message]
  exact ⟨hone, by simp only [updateLibs, hone]⟩

/-- Witness for C5: the concrete unknown-type library is skipped by the
update pass and the loop continues. -/
theorem C5_unknown_type_update_skips_witness :
    updateOne exArgs net404 cfgUnknown "A" worldRoots =
      ((message exArgs ("Unknown library type '" ++ "foo" ++ "'") worldRoots).1,
        .ok ()) ∧
    updateLibs exArgs net404 cfgUnknown ["A"] worldRoots =
      updateLibs exArgs net404 cfgUnknown []
        ((message exArgs ("Unknown library type '" ++ "foo" ++ "'") worldRoots).1) :=
  C5_unknown_type_update_skips exArgs net404 cfgUnknown "A" "1.0" "foo" worldRoots []
    (by decide) (by decide) (by decide) (by decide)

/-! ## Claim C9 -/

/-- C9: `_ensure_dir` behavior. With the target directory existing and
`force` set, it is removed (with the removal logged) and recreated and the
call reports newly-created; existing without `force`, the filesystem is
untouched and the call reports not-newly-created; absent, the directory is
created together with its parent namespace directory and the call reports
newly-created. A not-newly-created result makes `_fetch_from_provider`
skip the whole fetch, leaving the world exactly as `_ensure_dir` left it. -/
theorem C9_ensure_storage_dir :
    ∀ (a : Args) (cfg : Config) (lib subdir extdir : String) (w : World),
      extdirFromLibrary a.extroot cfg lib = .ok extdir →
      ((a.force = true → a.very_quiet = false →
        fsExists w.fs (pyJoin extdir subdir) = true →
        fsLookup w.fs (pyDirname (pyJoin extdir subdir)) = some .dir →
        pyDirname (pyJoin extdir subdir) ≠ pyJoin extdir subdir →
        strStartsWith (pyDirname (pyJoin extdir subdir))
          (pyJoin extdir subdir ++ "/") = false →
        pyBasename (pyJoin extdir subdir) ≠ "" →
        (ensureDir a cfg lib subdir w).2 = .ok true ∧
        (ensureDir a cfg lib subdir w).1.messages =
          w.messages ++ ["Removing old version of " ++ pyJoin extdir subdir] ∧
        fsLookup (ensureDir a cfg lib subdir w).1.fs (pyJoin extdir subdir) =
          some .dir ∧
        (∀ q, q ≠ pyJoin extdir subdir →
          strStartsWith q (pyJoin extdir subdir ++ "/") = true →
          fsLookup (ensureDir a cfg lib subdir w).1.fs q = none)) ∧
      (a.force = false → fsExists w.fs (pyJoin extdir subdir) = true →
        (ensureDir a cfg lib subdir w).2 = .ok false ∧
        (ensureDir a cfg lib subdir w).1.fs = w.fs) ∧
      (fsExists w.fs (pyJoin extdir subdir) = false →
        pyBasename (pyJoin extdir subdir) ≠ "" →
        pyDirname (pyJoin extdir subdir) ≠ "" →
        fsExists w.fs (pyDirname (pyJoin extdir subdir)) = false →
        fsLookup w.fs (pyDirname (pyDirname (pyJoin extdir subdir))) = some .dir →
        pyDirname (pyJoin extdir subdir) ≠ pyJoin extdir subdir →
        (ensureDir a cfg lib subdir w).2 = .ok true ∧
        fsLookup (ensureDir a cfg lib subdir w).1.fs (pyJoin extdir subdir) =
          some .dir ∧
        fsLookup (ensureDir a cfg lib subdir w).1.fs
          (pyDirname (pyJoin extdir subdir)) = some .dir) ∧
      (∀ (net : Net) (prov : String),
        (ensureDir a cfg lib subdir w).2 = .ok false →
        fetchFromProvider a net cfg lib subdir prov w =
          ((ensureDir a cfg lib subdir w).1, .ok ()))) := by
  intro a cfg lib subdir extdir w hext
  refine ⟨?_, ?_, ?_, ?_⟩
  · -- (A) exists, force set: remove and recreate
    intro hforce hq hex hpd hne hnpref hbase
    have hp : pyJoin extdir subdir ≠ "" := ne_empty_of_pyBasename hbase
    have hd2 : fsLookup (fsRmTree w.fs (pyJoin extdir subdir))
        (pyDirname (pyJoin extdir subdir)) = some .dir := by
      rw [fsLookup_fsRmTree, if_neg]
      · exact hpd
      · rintro (h | h)
        · exact hne h
        · rw [hnpref] at h; exact absurd h (by simp)
    have hnex2 : fsExists (fsRmTree w.fs (pyJoin extdir subdir))
        (pyJoin extdir subdir) = false := by
      simp [fsExists, fsLookup_fsRmTree]
    have hmk : makedirsF (pathFuel (pyJoin extdir subdir)) (pyJoin extdir subdir)
        (fsRmTree w.fs (pyJoin extdir subdir)) =
        (fsSet (fsRmTree w.fs (pyJoin extdir subdir)) (pyJoin extdir subdir) .dir,
          none) :=
      makedirsF_parent_dir _ _ _ hp hnex2 hd2
    have heval : ensureDir a cfg lib subdir w =
        ({ fs := fsSet (fsRmTree w.fs (pyJoin extdir subdir))
              (pyJoin extdir subdir) .dir,
           cwd := extdir,
           messages := w.messages ++
             ["Removing old version of " ++ pyJoin extdir subdir],
           executed := w.executed ++ ["rm -rf " ++ pyJoin extdir subdir],
           linkinfo := w.linkinfo }, .ok true) := by
      simp only [ensureDir, hext, hex, hforce, message, hq, makedirs]
      simp [hmk]
    rw [heval]
    refine ⟨rfl, rfl, by simp [fsLookup_fsSet], ?_⟩
    intro q hqne hqpref
    simp only []
    rw [fsLookup_fsSet, if_neg (fun h => hqne h.symm), fsLookup_fsRmTree,
      if_pos (Or.inr hqpref)]
  · -- (B) exists, force unset: untouched, not newly created
    intro hforce hex
    have heval : ensureDir a cfg lib subdir w =
        ({ (message a (pyJoin extdir subdir ++ " already exists") w).1 with
            cwd := extdir }, .ok false) := by
      simp only [ensureDir, hext, hex, hforce]
      simp
    rw [heval]
    refine ⟨rfl, ?_⟩
    cases hv : a.very_quiet <;> simp [message, hv]
  · -- (C) absent: created together with the parent namespace directory
    intro hnex hbase hdne hnexd hdd hne
    have hmk : makedirsF (pathFuel (pyJoin extdir subdir)) (pyJoin extdir subdir)
        w.fs =
        (fsSet (fsSet w.fs (pyDirname (pyJoin extdir subdir)) .dir)
          (pyJoin extdir subdir) .dir, none) :=
      makedirsF_two_levels _ _ hbase hdne hnex hnexd hdd hne
    have heval : ensureDir a cfg lib subdir w =
        ({ w with
            fs := fsSet (fsSet w.fs (pyDirname (pyJoin extdir subdir)) .dir)
              (pyJoin extdir subdir) .dir,
            cwd := extdir }, .ok true) := by
      simp only [ensureDir, hext, hnex, makedirs]
      simp [hmk]
    rw [heval]
    refine ⟨rfl, by simp [fsLookup_fsSet], ?_⟩
    simp only []
    rw [fsLookup_fsSet, if_neg (fun h => hne h.symm), fsLookup_fsSet, if_pos rfl]
  · -- (D) not newly created: the provider fetch does nothing more
    intro net prov hfalse
    simp only [fetchFromProvider]
    cases hres : ensureDir a cfg lib subdir w with
    | mk w1 r =>
      rw [hres] at hfalse
      have hr : r = .ok false := hfalse
      subst hr
      simp

/-- Witness for C9: concrete force-recreate, leave-untouched, and
create-with-parent runs of `_ensure_dir`, and the skipped provider fetch
on a not-newly-created directory. -/
theorem C9_ensure_storage_dir_witness :
    ((ensureDir exArgsForce cfgRepoLink "A" "1.0"
        (⟨[("/ext/u", .dir), ("/ext/u/1.0", .dir), ("/ext/u/1.0/sub", .file)],
          "/s", [], [], []⟩ : World)).2 = .ok true ∧
      (ensureDir exArgsForce cfgRepoLink "A" "1.0"
        (⟨[("/ext/u", .dir), ("/ext/u/1.0", .dir), ("/ext/u/1.0/sub", .file)],
          "/s", [], [], []⟩ : World)).1.messages =
        (⟨[("/ext/u", .dir), ("/ext/u/1.0", .dir), ("/ext/u/1.0/sub", .file)],
          "/s", [], [], []⟩ : World).messages ++
          ["Removing old version of " ++ pyJoin "/ext/u" "1.0"] ∧
      fsLookup (ensureDir exArgsForce cfgRepoLink "A" "1.0"
        (⟨[("/ext/u", .dir), ("/ext/u/1.0", .dir), ("/ext/u/1.0/sub", .file)],
          "/s", [], [], []⟩ : World)).1.fs (pyJoin "/ext/u" "1.0") = some .dir ∧
      fsLookup (ensureDir exArgsForce cfgRepoLink "A" "1.0"
        (⟨[("/ext/u", .dir), ("/ext/u/1.0", .dir), ("/ext/u/1.0/sub", .file)],
          "/s", [], [], []⟩ : World)).1.fs "/ext/u/1.0/sub" = none) ∧
    ((ensureDir exArgs cfgRepoLink "A" "1.0"
        (⟨[("/ext/u", .dir), ("/ext/u/1.0", .dir)], "/s", [], [], []⟩ : World)).2 =
        .ok false ∧
      (ensureDir exArgs cfgRepoLink "A" "1.0"
        (⟨[("/ext/u", .dir), ("/ext/u/1.0", .dir)], "/s", [], [], []⟩ : World)).1.fs =
        (⟨[("/ext/u", .dir), ("/ext/u/1.0", .dir)], "/s", [], [], []⟩ : World).fs) ∧
    ((ensureDir exArgs cfgRepoLink "A" "1.0" worldRoots).2 = .ok true ∧
      fsLookup (ensureDir exArgs cfgRepoLink "A" "1.0" worldRoots).1.fs
        (pyJoin "/ext/u" "1.0") = some .dir ∧
      fsLookup (ensureDir exArgs cfgRepoLink "A" "1.0" worldRoots).1.fs
        (pyDirname (pyJoin "/ext/u" "1.0")) = some .dir) ∧
    fetchFromProvider exArgs net404 cfgRepoLink "A" "1.0" "github"
        (⟨[("/ext/u", .dir), ("/ext/u/1.0", .dir)], "/s", [], [], []⟩ : World) =
      ((ensureDir exArgs cfgRepoLink "A" "1.0"
        (⟨[("/ext/u", .dir), ("/ext/u/1.0", .dir)], "/s", [], [], []⟩ : World)).1,
        .ok ()) := by
  refine ⟨?_, ?_, ?_, ?_⟩
  · have t := (C9_ensure_storage_dir exArgsForce cfgRepoLink "A" "1.0" "/ext/u"
      (⟨[("/ext/u", .dir), ("/ext/u/1.0", .dir), ("/ext/u/1.0/sub", .file)],
        "/s", [], [], []⟩ : World) (by decide)).1
      (by decide) (by decide) (by decide) (by decide) (by decide) (by decide)
      (by decide)
    exact ⟨t.1, t.2.1, t.2.2.1, t.2.2.2 "/ext/u/1.0/sub" (by decide) (by decide)⟩
  · exact (C9_ensure_storage_dir exArgs cfgRepoLink "A" "1.0" "/ext/u"
      (⟨[("/ext/u", .dir), ("/ext/u/1.0", .dir)], "/s", [], [], []⟩ : World)
      (by decide)).2.1 (by decide) (by decide)
  · exact (C9_ensure_storage_dir exArgs cfgRepoLink "A" "1.0" "/ext/u" worldRoots
      (by decide)).2.2.1 (by decide) (by decide) (by decide) (by decide) (by decide)
      (by decide)
  · exact (C9_ensure_storage_dir exArgs cfgRepoLink "A" "1.0" "/ext/u"
      (⟨[("/ext/u", .dir), ("/ext/u/1.0", .dir)], "/s", [], [], []⟩ : World)
      (by decide)).2.2.2 net404 "github" (by decide)

/-! ## Step lemmas for the link pass (claim C8 machinery) -/

theorem makedirsF_lookup :
    ∀ (fuel : Nat) (p : String) (fs fs1 : Fs) (r : Option PyErr),
      makedirsF fuel p fs = (fs1, r) →
      ∀ q, fsLookup fs1 q = fsLookup fs q ∨
        (fsLookup fs q = none ∧ fsLookup fs1 q = some .dir) := by
  intro fuel
  induction fuel with
  | zero =>
    intro p fs fs1 r h q
    cases h
    left; rfl
  | succ n ih =>
    intro p fs fs1 r h q
    simp only [makedirsF] at h
    split at h
    · cases h
      left; rfl
    · split at h
      · rename_i fs2 e heq
        have ih2 : ∀ q, fsLookup fs2 q = fsLookup fs q ∨
            (fsLookup fs q = none ∧ fsLookup fs2 q = some .dir) := by
          split at heq
          · exact ih (pyDirname p) fs fs2 (some e) heq
          · cases heq
        cases h
        exact ih2 q
      · rename_i fs2 heq
        have ih2 : ∀ q, fsLookup fs2 q = fsLookup fs q ∨
            (fsLookup fs q = none ∧ fsLookup fs2 q = some .dir) := by
          split at heq
          · exact ih (pyDirname p) fs fs2 none heq
          · cases heq
            exact fun q => Or.inl rfl
        split at h
        · cases h
          exact ih2 q
        · split at h
          · cases h
            exact ih2 q
          · rename_i hex hpar
            cases h
            by_cases hpq : p = q
            · subst hpq
              have h2 : fsLookup fs2 p = none := by
                cases hl : fsLookup fs2 p with
                | none => rfl
                | some e0 => rw [fsExists, hl] at hex; simp at hex
              right
              refine ⟨?_, by rw [fsLookup_fsSet, if_pos rfl]⟩
              rcases ih2 p with h3 | h3
              · rw [← h3, h2]
              · exact h3.1
            · rw [fsLookup_fsSet, if_neg hpq]
              exact ih2 q

theorem makedirsF_ok_self :
    ∀ (fuel : Nat) (p : String) (fs fs1 : Fs),
      makedirsF fuel p fs = (fs1, none) → fsLookup fs1 p = some .dir := by
  intro fuel p fs fs1 h
  cases fuel with
  | zero => cases h
  | succ n =>
    simp only [makedirsF] at h
    split at h
    · cases h
    · split at h
      · cases h
      · split at h
        · cases h
        · split at h
          · cases h
          · cases h
            rw [fsLookup_fsSet, if_pos rfl]

theorem fsIsDir_iff {fs : Fs} {p : String} :
    fsIsDir fs p = true ↔ fsLookup fs p = some .dir := by
  unfold fsIsDir
  cases hl : fsLookup fs p with
  | none => simp
  | some e => cases e <;> simp

theorem fsIsLink_true_lookup {fs : Fs} {p : String} (h : fsIsLink fs p = true) :
    ∃ t, fsLookup fs p = some (.symlink t) := by
  unfold fsIsLink at h
  cases hl : fsLookup fs p with
  | none => rw [hl] at h; simp at h
  | some e =>
    cases e with
    | symlink t => exact ⟨t, rfl⟩
    | dir => rw [hl] at h; simp at h
    | file => rw [hl] at h; simp at h

theorem fsIsLink_false_lookup {fs : Fs} {p : String} (h : fsIsLink fs p = false) :
    ∀ t, fsLookup fs p ≠ some (.symlink t) := by
  intro t ht
  unfold fsIsLink at h
  rw [ht] at h
  simp at h

theorem fsIsLink_of_lookup_nonlink {fs : Fs} {p : String} {e : Entry}
    (he : fsLookup fs p = some e) (hnl : ∀ s, e ≠ .symlink s) :
    fsIsLink fs p = false := by
  unfold fsIsLink
  rw [he]
  cases e with
  | symlink t => exact absurd rfl (hnl t)
  | dir => rfl
  | file => rfl

theorem fsExists_false_lookup {fs : Fs} {p : String} (h : fsExists fs p = false) :
    fsLookup fs p = none := by
  unfold fsExists at h
  cases hl : fsLookup fs p with
  | none => rfl
  | some e => rw [hl] at h; simp at h

theorem fsExists_true_lookup {fs : Fs} {p : String} (h : fsExists fs p = true) :
    ∃ e, fsLookup fs p = some e := by
  unfold fsExists at h
  cases hl : fsLookup fs p with
  | none => rw [hl] at h; simp at h
  | some e => exact ⟨e, rfl⟩

/-- Success of one link-pair filesystem step: the destination's parent is a
directory afterwards; other paths are unchanged or freshly created
directories; the destination itself holds the new symlink or a non-symlink
entry; and directories are preserved. -/
theorem fsApplyPair_ok_spec (lf lt : String) (fs fs' : Fs)
    (h : fsApplyPair lf lt fs = (fs', none)) :
    fsLookup fs' (pyDirname lt) = some .dir ∧
    (∀ q, q ≠ lt → (fsLookup fs' q = fsLookup fs q ∨
      (fsLookup fs q = none ∧ fsLookup fs' q = some .dir))) ∧
    (fsLookup fs' lt = some (.symlink lf) ∨
      (∃ e, fsLookup fs' lt = some e ∧ ∀ s, e ≠ .symlink s)) ∧
    (∀ q, fsLookup fs q = some .dir → fsLookup fs' q = some .dir) := by
  simp only [fsApplyPair] at h
  split at h
  · cases h
  · rename_i fs1 heq
    have hphase : (∀ q, fsLookup fs1 q = fsLookup fs q ∨
        (fsLookup fs q = none ∧ fsLookup fs1 q = some .dir)) ∧
        fsLookup fs1 (pyDirname lt) = some .dir := by
      split at heq
      · rename_i hdir
        cases heq
        exact ⟨fun q => Or.inl rfl, fsIsDir_iff.mp hdir⟩
      · exact ⟨makedirsF_lookup _ _ _ _ _ heq, makedirsF_ok_self _ _ _ _ heq⟩
    obtain ⟨hph, hd1⟩ := hphase
    have hdirpres : ∀ q, fsLookup fs q = some .dir → fsLookup fs1 q = some .dir := by
      intro q hq
      rcases hph q with h1 | h1
      · rw [h1, hq]
      · exact h1.2
    cases h
    by_cases hlink : fsIsLink fs1 lt = true
    · -- a stale symlink is removed, then the new one created
      obtain ⟨t, ht⟩ := fsIsLink_true_lookup hlink
      have hdne : pyDirname lt ≠ lt := by
        intro hdeq
        rw [hdeq, ht] at hd1
        cases hd1
      rw [if_pos hlink]
      have hex : fsExists (fsRemove fs1 lt) lt = false := by
        unfold fsExists
        rw [fsLookup_fsRemove, if_pos rfl]
        rfl
      rw [if_neg (by rw [hex]; simp : ¬ fsExists (fsRemove fs1 lt) lt = true)]
      refine ⟨?_, ?_, ?_, ?_⟩
      · rw [fsLookup_fsSet, if_neg (fun hh => hdne hh.symm), fsLookup_fsRemove,
          if_neg hdne]
        exact hd1
      · intro q hq
        rw [fsLookup_fsSet, if_neg (fun hh => hq hh.symm), fsLookup_fsRemove,
          if_neg hq]
        exact hph q
      · left
        rw [fsLookup_fsSet, if_pos rfl]
      · intro q hq
        by_cases hqlt : q = lt
        · subst hqlt
          have := hdirpres q hq
          rw [this] at ht
          cases ht
        · rw [fsLookup_fsSet, if_neg (fun hh => hqlt hh.symm), fsLookup_fsRemove,
            if_neg hqlt]
          exact hdirpres q hq
    · rw [if_neg hlink]
      have hlink2 : fsIsLink fs1 lt = false := by
        cases hv : fsIsLink fs1 lt with
        | false => rfl
        | true => exact absurd hv hlink
      by_cases hex : fsExists fs1 lt = true
      · -- something already occupies the destination: nothing happens
        rw [if_pos hex]
        obtain ⟨e, he⟩ := fsExists_true_lookup hex
        refine ⟨hd1, fun q _ => hph q, ?_, hdirpres⟩
        right
        exact ⟨e, he, fun s hs => fsIsLink_false_lookup hlink2 s (hs ▸ he)⟩
      · -- destination free: the symlink is created
        rw [if_neg hex]
        have hnone : fsLookup fs1 lt = none := by
          cases hv : fsExists fs1 lt with
          | false => exact fsExists_false_lookup hv
          | true => exact absurd hv hex
        have hdne : pyDirname lt ≠ lt := by
          intro hdeq
          rw [hdeq, hnone] at hd1
          cases hd1
        refine ⟨?_, ?_, ?_, ?_⟩
        · rw [fsLookup_fsSet, if_neg (fun hh => hdne hh.symm)]
          exact hd1
        · intro q hq
          rw [fsLookup_fsSet, if_neg (fun hh => hq hh.symm)]
          exact hph q
        · left
          rw [fsLookup_fsSet, if_pos rfl]
        · intro q hq
          by_cases hqlt : q = lt
          · subst hqlt
            have := hdirpres q hq
            rw [this] at hnone
            cases hnone
          · rw [fsLookup_fsSet, if_neg (fun hh => hqlt hh.symm)]
            exact hdirpres q hq

/-- When the destination's parent already is a directory, the step does no
`makedirs` work and cannot fail. -/
theorem fsApplyPair_isdir (lf lt : String) (fs : Fs)
    (hd : fsIsDir fs (pyDirname lt) = true) :
    fsApplyPair lf lt fs =
      ((if fsExists (if fsIsLink fs lt then fsRemove fs lt else fs) lt then
          (if fsIsLink fs lt then fsRemove fs lt else fs)
        else fsSet (if fsIsLink fs lt then fsRemove fs lt else fs) lt
          (.symlink lf)), none) := by
  simp only [fsApplyPair]
  rw [if_pos hd]

/-- The step at a destination occupied by a non-symlink (parent a
directory) leaves the filesystem unchanged. -/
theorem fsApplyPair_isdir_nonlink {lf lt : String} {fs : Fs} {e : Entry}
    (hd : fsIsDir fs (pyDirname lt) = true)
    (he : fsLookup fs lt = some e) (hnl : ∀ s, e ≠ .symlink s) :
    fsApplyPair lf lt fs = (fs, none) := by
  rw [fsApplyPair_isdir lf lt fs hd]
  rw [if_neg (by rw [fsIsLink_of_lookup_nonlink he hnl]; simp :
    ¬ fsIsLink fs lt = true)]
  rw [if_pos (by unfold fsExists; rw [he]; rfl : fsExists fs lt = true)]

/-- The step at a destination holding a symlink (parent a directory)
replaces it by a symlink to the new source. -/
theorem fsApplyPair_isdir_link {lf lt t : String} {fs : Fs}
    (hd : fsIsDir fs (pyDirname lt) = true)
    (he : fsLookup fs lt = some (.symlink t)) :
    fsApplyPair lf lt fs = (fsSet (fsRemove fs lt) lt (.symlink lf), none) := by
  rw [fsApplyPair_isdir lf lt fs hd]
  rw [if_pos (by unfold fsIsLink; rw [he] : fsIsLink fs lt = true)]
  rw [if_neg (by unfold fsExists; rw [fsLookup_fsRemove, if_pos rfl]; simp :
    ¬ fsExists (fsRemove fs lt) lt = true)]

theorem fsLinkStep_ok {a : Args} {lf lt : String} {w : World} {fs' : Fs}
    (h : fsApplyPair lf lt w.fs = (fs', none)) :
    ∃ w', fsLinkStep a lf lt w = (w', .ok ()) ∧ w'.fs = fs' := by
  simp only [fsLinkStep, h]
  refine ⟨_, rfl, ?_⟩
  cases hv : a.very_quiet <;> simp [message, hv]

theorem fsLinkStep_ok_inv {a : Args} {lf lt : String} {w w' : World}
    (h : fsLinkStep a lf lt w = (w', .ok ())) :
    fsApplyPair lf lt w.fs = (w'.fs, none) := by
  simp only [fsLinkStep] at h
  split at h
  · cases h
  · rename_i fs' heq
    cases h
    rw [heq]
    cases hv : a.very_quiet <;> simp [message, hv]

/-- Characterization of a successful sequence of link-pair steps: every
processed destination's parent ends up a directory; each destination ends
holding the symlink of its last pair or a non-symlink entry; directories
are preserved; untouched paths keep their entry (or gain a directory). -/
theorem runSteps_charact :
    ∀ (a : Args) (ps : List (String × String)) (w t : World),
      runSteps a ps w = (t, .ok ()) →
      ((∀ lf lt, (lf, lt) ∈ ps → fsLookup t.fs (pyDirname lt) = some .dir) ∧
       (∀ q fstar, lastFrom ps q = some fstar →
         (fsLookup t.fs q = some (.symlink fstar) ∨
          (∃ e, fsLookup t.fs q = some e ∧ ∀ s, e ≠ .symlink s))) ∧
       (∀ q, fsLookup w.fs q = some .dir → fsLookup t.fs q = some .dir) ∧
       (∀ q, lastFrom ps q = none →
         (fsLookup t.fs q = fsLookup w.fs q ∨
          (fsLookup w.fs q = none ∧ fsLookup t.fs q = some .dir)))) := by
  intro a ps
  induction ps with
  | nil =>
    intro w t h
    simp only [runSteps] at h
    cases h
    exact ⟨by simp, by simp [lastFrom], fun q hq => hq, fun q _ => Or.inl rfl⟩
  | cons p rest ih =>
    intro w t h
    obtain ⟨lf, lt⟩ := p
    simp only [runSteps] at h
    split at h
    · cases h
    · rename_i w1 u0 heq
      have happ := fsLinkStep_ok_inv heq
      obtain ⟨s1, s3a, s3b, s2⟩ := fsApplyPair_ok_spec lf lt w.fs w1.fs happ
      obtain ⟨ih1, ih2, ih3, ih4⟩ := ih w1 t h
      refine ⟨?_, ?_, ?_, ?_⟩
      · intro lf0 lt0 hmem
        rcases List.mem_cons.mp hmem with hhead | htail
        · injection hhead with h1 h2
          subst h1
          subst h2
          exact ih3 _ s1
        · exact ih1 lf0 lt0 htail
      · intro q fstar hlast
        simp only [lastFrom] at hlast
        cases hrest : lastFrom rest q with
        | some x =>
          rw [hrest] at hlast
          have hx : x = fstar := by simpa using hlast
          subst hx
          exact ih2 q x hrest
        | none =>
          rw [hrest] at hlast
          by_cases hltq : lt = q
          · subst hltq
            have hlf : lf = fstar := by
              simpa using hlast
            subst hlf
            rcases ih4 lt hrest with h4 | h4
            · rw [h4]
              exact s3b
            · rcases s3b with hs | ⟨e, he, hnl⟩
              · rw [hs] at h4; cases h4.1
              · rw [he] at h4; cases h4.1
          · rw [if_neg hltq] at hlast
            simp at hlast
      · intro q hq
        exact ih3 q (s2 q hq)
      · intro q hlast
        simp only [lastFrom] at hlast
        have hparts : lastFrom rest q = none ∧ ¬ lt = q := by
          cases hrest : lastFrom rest q with
          | some x => rw [hrest] at hlast; simp at hlast
          | none =>
            rw [hrest] at hlast
            refine ⟨rfl, fun hh => ?_⟩
            rw [if_pos hh] at hlast
            simp at hlast
        rcases s3a q (fun hh => hparts.2 hh.symm) with hA | hA
        · rcases ih4 q hparts.1 with hB | hB
          · left
            rw [hB, hA]
          · right
            refine ⟨?_, hB.2⟩
            rw [← hA]
            exact hB.1
        · rcases ih4 q hparts.1 with hB | hB
          · right
            refine ⟨hA.1, ?_⟩
            rw [hB]
            exact hA.2
          · right
            exact ⟨hA.1, hB.2⟩

/-- Replaying a pair sequence from a state that already satisfies the
final-state characterization succeeds and returns to the same filesystem:
the inductive invariant allows pending destinations to point at an older
symlink target, everything else agrees with the reference state `t`. -/
theorem runSteps_replay :
    ∀ (a : Args) (ps : List (String × String)) (t u : World),
      (∀ lf lt, (lf, lt) ∈ ps → fsLookup t.fs (pyDirname lt) = some .dir) →
      (∀ q fstar, lastFrom ps q = some fstar →
        (fsLookup t.fs q = some (.symlink fstar) ∨
         (∃ e, fsLookup t.fs q = some e ∧ ∀ s, e ≠ .symlink s))) →
      (∀ q, fsLookup u.fs q = fsLookup t.fs q ∨
        (lastFrom ps q ≠ none ∧ ∃ f f2, fsLookup u.fs q = some (.symlink f) ∧
          fsLookup t.fs q = some (.symlink f2))) →
      (runSteps a ps u).2 = .ok () ∧
      ∀ q, fsLookup (runSteps a ps u).1.fs q = fsLookup t.fs q := by
  intro a ps
  induction ps with
  | nil =>
    intro t u _ _ hI
    refine ⟨rfl, fun q => ?_⟩
    rcases hI q with h | h
    · exact h
    · exact absurd rfl h.1
  | cons p rest ih =>
    intro t u H1 H2 HI
    obtain ⟨lf, lt⟩ := p
    have htd : fsLookup t.fs (pyDirname lt) = some .dir :=
      H1 lf lt (List.mem_cons_self _ _)
    have hud : fsLookup u.fs (pyDirname lt) = some .dir := by
      rcases HI (pyDirname lt) with h | ⟨_, f, f2, _, ht2⟩
      · rw [h]; exact htd
      · rw [ht2] at htd; cases htd
    have hudir : fsIsDir u.fs (pyDirname lt) = true := fsIsDir_iff.mpr hud
    obtain ⟨X, hX, hXcase⟩ : ∃ X, lastFrom ((lf, lt) :: rest) lt = some X ∧
        (lastFrom rest lt = some X ∨ (lastFrom rest lt = none ∧ X = lf)) := by
      cases hrl : lastFrom rest lt with
      | some x => exact ⟨x, by simp [lastFrom, hrl], Or.inl rfl⟩
      | none => exact ⟨lf, by simp [lastFrom, hrl], Or.inr ⟨rfl, rfl⟩⟩
    have H1rest : ∀ lf0 lt0, (lf0, lt0) ∈ rest →
        fsLookup t.fs (pyDirname lt0) = some .dir :=
      fun lf0 lt0 hm => H1 lf0 lt0 (List.mem_cons_of_mem _ hm)
    have H2rest : ∀ q fstar, lastFrom rest q = some fstar →
        (fsLookup t.fs q = some (.symlink fstar) ∨
         (∃ e, fsLookup t.fs q = some e ∧ ∀ s, e ≠ .symlink s)) :=
      fun q f0 hq => H2 q f0 (by simp [lastFrom, hq])
    rcases H2 lt X hX with htl | ⟨e, he, hnl⟩
    · -- the reference state has a symlink at lt: the step re-creates it
      obtain ⟨f, hf⟩ : ∃ f, fsLookup u.fs lt = some (.symlink f) := by
        rcases HI lt with h | ⟨_, f, f2, hu, _⟩
        · exact ⟨X, by rw [h]; exact htl⟩
        · exact ⟨f, hu⟩
      have happ := @fsApplyPair_isdir_link lf lt f u.fs hudir hf
      obtain ⟨w1, hw1, hw1fs⟩ := fsLinkStep_ok (a := a) happ
      have hrsteps : runSteps a ((lf, lt) :: rest) u = runSteps a rest w1 := by
        simp only [runSteps, hw1]
      rw [hrsteps]
      refine ih t w1 H1rest H2rest ?_
      intro q
      by_cases hqlt : q = lt
      · subst hqlt
        rcases hXcase with hc | ⟨hc, hXlf⟩
        · right
          refine ⟨by simp [hc], lf, X, ?_, htl⟩
          rw [hw1fs, fsLookup_fsSet, if_pos rfl]
        · left
          rw [hw1fs, fsLookup_fsSet, if_pos rfl, htl, hXlf]
      · have hq1 : fsLookup w1.fs q = fsLookup u.fs q := by
          rw [hw1fs, fsLookup_fsSet, if_neg (fun hh => hqlt hh.symm),
            fsLookup_fsRemove, if_neg hqlt]
        rcases HI q with h | ⟨hne0, f0, f2, hu0, ht0⟩
        · left
          rw [hq1]
          exact h
        · right
          have hrest0 : lastFrom rest q ≠ none := by
            intro hnone
            apply hne0
            have hlt : ¬ lt = q := fun hh => hqlt hh.symm
            simp [lastFrom, hnone, hlt]
          refine ⟨hrest0, f0, f2, ?_, ht0⟩
          rw [hq1]
          exact hu0
    · -- the reference state has a non-symlink at lt: the step is a no-op
      have hul : fsLookup u.fs lt = some e := by
        rcases HI lt with h | ⟨_, f, f2, _, ht2⟩
        · rw [h]; exact he
        · rw [he] at ht2
          injection ht2 with h3
          exact absurd h3 (hnl f2)
      have happ := @fsApplyPair_isdir_nonlink lf lt u.fs e hudir hul hnl
      obtain ⟨w1, hw1, hw1fs⟩ := fsLinkStep_ok (a := a) happ
      have hrsteps : runSteps a ((lf, lt) :: rest) u = runSteps a rest w1 := by
        simp only [runSteps, hw1]
      rw [hrsteps]
      refine ih t w1 H1rest H2rest ?_
      intro q
      rw [hw1fs]
      by_cases hqlt : q = lt
      · subst hqlt
        left
        rw [hul, he]
      · rcases HI q with h | ⟨hne0, f0, f2, hu0, ht0⟩
        · left
          exact h
        · right
          have hrest0 : lastFrom rest q ≠ none := by
            intro hnone
            apply hne0
            have hlt : ¬ lt = q := fun hh => hqlt hh.symm
            simp [lastFrom, hnone, hlt]
          exact ⟨hrest0, f0, f2, hu0, ht0⟩

theorem runSteps_append (a : Args) :
    ∀ (ps1 ps2 : List (String × String)) (w : World),
      runSteps a (ps1 ++ ps2) w =
        match runSteps a ps1 w with
        | (w1, .error e) => (w1, .error e)
        | (w1, .ok _) => runSteps a ps2 w1 := by
  intro ps1
  induction ps1 with
  | nil => intro ps2 w; rfl
  | cons p rest ih =>
    intro ps2 w
    obtain ⟨lf, lt⟩ := p
    simp only [List.cons_append, runSteps]
    rcases hstep : fsLinkStep a lf lt w with ⟨w1, r⟩
    cases r with
    | error e => rfl
    | ok u => exact ih ps2 w1

theorem linkPairs_eq_runSteps :
    ∀ (a : Args) (cfg : Config) (lib : String) (ks ps : List (String × String)),
      resolvePairsList a cfg lib ks = .ok ps →
      ∀ w, linkPairs a cfg lib ks w = runSteps a ps w := by
  intro a cfg lib ks
  induction ks with
  | nil =>
    intro ps h w
    cases h
    rfl
  | cons k rest ih =>
    intro ps h w
    obtain ⟨fk, tk⟩ := k
    simp only [resolvePairsList] at h
    split at h
    · cases h
    · rename_i p heq
      split at h
      · cases h
      · rename_i ps0 heq2
        cases h
        obtain ⟨lf, lt⟩ := p
        simp only [linkPairs, linkPair, heq, runSteps]
        rcases hstep : fsLinkStep a lf lt w with ⟨w1, r⟩
        cases r with
        | error e => rfl
        | ok u => exact ih ps0 heq2 w1

theorem linkLibs_eq_runSteps :
    ∀ (a : Args) (cfg : Config) (L : Config) (ps : List (String × String)),
      resolvedAll a cfg L = .ok ps →
      ∀ w, linkLibs a cfg L w = runSteps a ps w := by
  intro a cfg L
  induction L with
  | nil =>
    intro ps h w
    cases h
    rfl
  | cons s rest ih =>
    intro ps h w
    obtain ⟨lib, opts⟩ := s
    simp only [resolvedAll] at h
    split at h
    · cases h
    · rename_i ps1 heq1
      split at h
      · cases h
      · rename_i ps2 heq2
        cases h
        simp only [linkLibs, linkPairs_eq_runSteps a cfg lib (getLinks opts) ps1 heq1,
          runSteps_append]
        rcases hr : runSteps a ps1 w with ⟨w1, r⟩
        cases r with
        | error e => rfl
        | ok u => exact ih ps2 heq2 w1

theorem linkPairs_ok_resolve :
    ∀ (a : Args) (cfg : Config) (lib : String) (ks : List (String × String))
      (w t : World),
      linkPairs a cfg lib ks w = (t, .ok ()) →
      ∃ ps, resolvePairsList a cfg lib ks = .ok ps := by
  intro a cfg lib ks
  induction ks with
  | nil => exact fun w t _ => ⟨[], rfl⟩
  | cons k rest ih =>
    intro w t h
    obtain ⟨fk, tk⟩ := k
    simp only [linkPairs] at h
    split at h
    · cases h
    · rename_i w1 u0 heq
      simp only [linkPair] at heq
      split at heq
      · cases heq
      · rename_i lf0 lt0 heqres
        obtain ⟨ps0, hps0⟩ := ih w1 t h
        exact ⟨(lf0, lt0) :: ps0, by simp only [resolvePairsList, heqres, hps0]⟩

theorem linkLibs_ok_resolve :
    ∀ (a : Args) (cfg : Config) (L : Config) (w t : World),
      linkLibs a cfg L w = (t, .ok ()) →
      ∃ ps, resolvedAll a cfg L = .ok ps := by
  intro a cfg L
  induction L with
  | nil => exact fun w t _ => ⟨[], rfl⟩
  | cons s rest ih =>
    intro w t h
    obtain ⟨lib, opts⟩ := s
    simp only [linkLibs] at h
    split at h
    · cases h
    · rename_i w1 u0 heq
      obtain ⟨ps1, hps1⟩ := linkPairs_ok_resolve a cfg lib (getLinks opts) w w1 heq
      obtain ⟨ps2, hps2⟩ := ih w1 t h
      exact ⟨ps1 ++ ps2, by simp only [resolvedAll, hps1, hps2]⟩

/-! ## Claim C8 -/

/-- C8 (counterexample): with a regular file occupying the parent of a
link destination, the link pass raises (`os.makedirs` fails) — and so does
running it a second time from the state the first run left behind. The
claim's "the second run does not raise" is false for this configuration
and filesystem state. -/
theorem C8_counterexample_second_run_raises :
    (doLink exArgs cfgRepoDeepLink worldBlocked).2 = .error .osError ∧
    (doLink exArgs cfgRepoDeepLink
      ((doLink exArgs cfgRepoDeepLink worldBlocked).1)).2 = .error .osError := by
  decide

/-- C8 (amended): for every configuration and filesystem state from which
a single link pass completes without raising, running the link pass a
second time does not raise and leaves every path's filesystem entry — in
particular the set of symlinks — exactly as the first run left it. -/
theorem C8_link_pass_idempotent :
    ∀ (a : Args) (cfg : Config) (w : World),
      (doLink a cfg w).2 = .ok () →
      (doLink a cfg ((doLink a cfg w).1)).2 = .ok () ∧
      ∀ q, fsLookup (doLink a cfg ((doLink a cfg w).1)).1.fs q =
        fsLookup ((doLink a cfg w).1).fs q := by
  intro a cfg w h
  have hL : linkLibs a cfg cfg w = ((doLink a cfg w).1, .ok ()) := by
    rw [← h]
    rfl
  obtain ⟨ps, hres⟩ := linkLibs_ok_resolve a cfg cfg w ((doLink a cfg w).1) hL
  have heq := linkLibs_eq_runSteps a cfg cfg ps hres
  have hrun : runSteps a ps w = ((doLink a cfg w).1, .ok ()) := by
    rw [← heq w]
    exact hL
  obtain ⟨chA, chB, _, _⟩ :=
    runSteps_charact a ps w ((doLink a cfg w).1) hrun
  have hreplay := runSteps_replay a ps ((doLink a cfg w).1) ((doLink a cfg w).1)
    chA chB (fun q => Or.inl rfl)
  have heq2 : doLink a cfg ((doLink a cfg w).1) =
      runSteps a ps ((doLink a cfg w).1) := heq _
  rw [heq2]
  exact hreplay

/-- Witness for C8: the one-library repo configuration links once, and the
second pass succeeds leaving the link entry unchanged. -/
theorem C8_link_pass_idempotent_witness :
    (doLink exArgs cfgRepoLink ((doLink exArgs cfgRepoLink worldRoots).1)).2 =
      .ok () ∧
    fsLookup (doLink exArgs cfgRepoLink
      ((doLink exArgs cfgRepoLink worldRoots).1)).1.fs "/proj/x" =
      fsLookup ((doLink exArgs cfgRepoLink worldRoots).1).fs "/proj/x" :=
  ⟨(C8_link_pass_idempotent exArgs cfgRepoLink worldRoots (by decide)).1,
   (C8_link_pass_idempotent exArgs cfgRepoLink worldRoots (by decide)).2 "/proj/x"⟩
